import Mathlib

/-!
Verification of the Ouroboros supervisor core against its design spec.

The Python sources (`supervisor/events.py`, `supervisor/telegram.py`,
`colab_launcher.py`) are shallowly embedded below: text is `List Char` or
`String` (a Python `str` is a sequence of code points), Python floats are
modelled as `ℚ`, dicts with known fields become structures with `Option`
fields for possibly-absent keys, and side effects (messages sent, queue
snapshots, log records, process replacement) are recorded as explicit
state components or action traces.
-/

/-! ## supervisor/telegram.py : split_telegram -/

/-- Embedding of Python `s.rfind("\n", 0, limit)` restricted to a found
result: the greatest index `i < limit` (and `i < len s`) with `s[i] = '\n'`,
`none` when there is no newline in `s[0:limit]` (Python returns `-1`). -/
def rfindNl (s : List Char) (limit : Nat) : Option Nat :=
  (List.range (min limit s.length)).reverse.find? (fun i => s.getD i ' ' = '\n')

/-- Fuel-indexed body of `split_telegram` (supervisor/telegram.py lines
97-107).  The Python `while len(s) > limit` loop strictly shrinks `s` by at
least one character per iteration whenever `limit ≥ 1`, so fuel
`s.length` is always sufficient (proved below); the fuel-exhausted branch
returns the remaining text unchanged, mirroring loop exit. -/
def splitTgAux : Nat → List Char → Nat → List (List Char)
  | 0, s, _ => [s]
  | Nat.succ fuel, s, limit =>
    if limit < s.length then
      let cut : Nat :=
        match rfindNl s limit with
        | some i => if i < 100 then limit else i
        | none => limit
      s.take cut :: splitTgAux fuel (s.drop cut) limit
    else [s]

/-- `split_telegram(text, limit)` from supervisor/telegram.py. -/
def split_telegram (s : List Char) (limit : Nat) : List (List Char) :=
  splitTgAux s.length s limit

/-! ## Python-semantics helpers -/

/-- `a or d` for an optional string with Python truthiness (`None` and `""`
are falsy). -/
def pyOrStr (a : Option String) (d : String) : String :=
  match a with
  | some s => if s = "" then d else s
  | none => d

/-- Python truthiness of an optional string. -/
def pyTruthyStr : Option String → Bool
  | some s => decide (s ≠ "")
  | none => false

/-- Python whitespace recognised by `str.strip()` (ASCII subset). -/
def isPySpace (c : Char) : Bool :=
  c = ' ' || c = '\t' || c = '\n' || c = '\r' || c = Char.ofNat 11 || c = Char.ofNat 12

/-- `text.strip()`. -/
def pyStrip (s : String) : String :=
  String.mk (((s.toList.dropWhile isPySpace).reverse.dropWhile isPySpace).reverse)

/-- `str.lower()` on one character, covering the alphabets used by the
keyword regex: ASCII `A-Z` and Cyrillic `А-Я`/`Ё`. -/
def pyLowerChar (c : Char) : Char :=
  if 'A' ≤ c ∧ c ≤ 'Z' then Char.ofNat (c.toNat + 32)
  else if 0x410 ≤ c.toNat ∧ c.toNat ≤ 0x42F then Char.ofNat (c.toNat + 0x20)
  else if c.toNat = 0x401 then Char.ofNat 0x451
  else c

/-- Assoc-list lookup modelling `d.get(k)` on a Python dict. -/
def alookup {α β : Type} [DecidableEq α] (l : List (α × β)) (k : α) : Option β :=
  (l.find? (fun p => p.1 = k)).map (fun p => p.2)

/-- `k in d` on a Python dict. -/
def amem {α β : Type} [DecidableEq α] (l : List (α × β)) (k : α) : Bool :=
  l.any (fun p => p.1 = k)

/-- `d[k] = v`: replace in place when the key exists, append otherwise. -/
def aset {α β : Type} [DecidableEq α] (l : List (α × β)) (k : α) (v : β) : List (α × β) :=
  if amem l k then l.map (fun p => if p.1 = k then (k, v) else p) else l ++ [(k, v)]

/-- `d.pop(k, None)`. -/
def aremove {α β : Type} [DecidableEq α] (l : List (α × β)) (k : α) : List (α × β) :=
  l.filter (fun p => decide (p.1 ≠ k))

theorem rfindNl_lt_limit {s : List Char} {limit i : Nat}
    (h : rfindNl s limit = some i) : i < limit := by
  unfold rfindNl at h
  have hmem := List.mem_of_find?_eq_some h
  have hr := List.mem_range.mp (List.mem_reverse.mp hmem)
  omega

theorem splitTgAux_spec (limit : Nat) (hl : 1 ≤ limit) :
    ∀ (fuel : Nat) (s : List Char), s.length ≤ fuel →
      splitTgAux fuel s limit ≠ [] ∧
      (splitTgAux fuel s limit).flatten = s ∧
      ∀ c ∈ splitTgAux fuel s limit, c.length ≤ limit := by
  intro fuel
  induction fuel with
  | zero =>
    intro s hs
    have hnil : s = [] := List.eq_nil_of_length_eq_zero (Nat.le_zero.mp hs)
    subst hnil
    refine ⟨by simp [splitTgAux], by simp [splitTgAux], ?_⟩
    intro c hc
    simp only [splitTgAux, List.mem_singleton] at hc
    subst hc; simpa using hl
  | succ fuel ih =>
    intro s hs
    by_cases hlen : limit < s.length
    · -- loop body: one cut, then recurse
      set cut : Nat :=
        (match rfindNl s limit with
          | some i => if i < 100 then limit else i
          | none => limit) with hcut
      have hcut_le : cut ≤ limit := by
        rw [hcut]
        cases hfind : rfindNl s limit with
        | none => simp
        | some i =>
          have := rfindNl_lt_limit hfind
          by_cases hi : i < 100 <;> simp [hi] <;> omega
      have hcut_pos : 1 ≤ cut := by
        rw [hcut]
        cases hfind : rfindNl s limit with
        | none => simpa using hl
        | some i =>
          by_cases hi : i < 100
          · simpa [hi] using hl
          · simp [hi]; omega
      have hstep : splitTgAux (fuel + 1) s limit =
          s.take cut :: splitTgAux fuel (s.drop cut) limit := by
        simp only [splitTgAux, if_pos hlen, hcut]
      have hdrop_len : (s.drop cut).length ≤ fuel := by
        rw [List.length_drop]; omega
      obtain ⟨_, hjoin, hchunks⟩ := ih (s.drop cut) hdrop_len
      refine ⟨by rw [hstep]; simp, ?_, ?_⟩
      · rw [hstep, List.flatten]
        rw [hjoin, List.take_append_drop]
      · intro c hc
        rw [hstep] at hc
        rcases List.mem_cons.mp hc with hc | hc
        · subst hc
          rw [List.length_take]
          omega
        · exact hchunks c hc
    · -- loop exit: the remaining text fits in one chunk
      have hstep : splitTgAux (fuel + 1) s limit = [s] := by
        simp only [splitTgAux, if_neg hlen]
      refine ⟨by rw [hstep]; simp, by rw [hstep]; simp, ?_⟩
      intro c hc
      rw [hstep, List.mem_singleton] at hc
      subst hc; omega

/-- C10: for every text and every positive limit, `split_telegram` returns a
non-empty chunk list whose concatenation is exactly the input text, and
every chunk is at most `limit` characters long. -/
theorem split_telegram_partition (text : List Char) (limit : Nat) (hl : 1 ≤ limit) :
    split_telegram text limit ≠ [] ∧
    (split_telegram text limit).flatten = text ∧
    ∀ c ∈ split_telegram text limit, c.length ≤ limit :=
  splitTgAux_spec limit hl text.length text (Nat.le_refl _)

/-- Witness for C10 at the concrete input `"abcd"` with limit `2`. -/
theorem split_telegram_partition_witness :
    1 ≤ 2 ∧ (split_telegram ("abcd".toList) 2).flatten = "abcd".toList :=
  ⟨by decide, (split_telegram_partition ("abcd".toList) 2 (by decide)).2.1⟩

/-! ## Data model of the supervisor context (ctx fields used by events.py) -/

/-- A task dict as enqueued / carried inside a running entry; `Option`
fields model possibly-absent dict keys. -/
structure TaskRec where
  id : Option String := none
  type_ : String := "task"
  chat_id : Int := 0
  text : Option String := none
  description : Option String := none
  depth : Int := 0
  parent_task_id : Option String := none
  deriving DecidableEq

/-- A `ctx.RUNNING` entry (`{task, started_at, last_heartbeat_at,
heartbeat_phase}`). -/
structure RunMeta where
  task : Option TaskRec := none
  started_at : Option ℚ := none
  last_heartbeat_at : Option ℚ := none
  heartbeat_phase : Option String := none
  deriving DecidableEq

/-- A `ctx.WORKERS` slot; only the field events.py touches. -/
structure WorkerSlot where
  busy_task_id : Option String := none
  deriving DecidableEq

/-- A persisted `task_results/<id>.json` record (events.py lines 143-149). -/
structure ResultRec where
  task_id : Option String := none
  status : String := ""
  result : String := ""
  cost_usd : ℚ := 0
  ts : String := ""
  deriving DecidableEq

/-- The durable state record (`load_state`/`save_state`), restricted to the
fields the embedded handlers read or write. -/
structure StateRec where
  owner_chat_id : Option Int := none
  evolution_consecutive_failures : Option Int := none
  session_id : Option String := none
  tg_offset : Option Int := none
  deriving DecidableEq

/-- Python truthiness of `st.get("owner_chat_id")`: absent and `0` are falsy. -/
def ownerOf (st : StateRec) : Option Int :=
  match st.owner_chat_id with
  | some c => if c = 0 then none else some c
  | none => none

/-- Diagnostic records appended to `logs/supervisor.jsonl` or emitted via the
`logging` module, reduced to the fields the claims inspect. -/
inductive LogEntry where
  | invalidEvent (error : String)
  | unknownEvent (eventType : String)
  | handlerError (eventType : String) (error : String)
  | depthLimitWarn (depth : Int) (desc : String)
  | duplicateInfo (desc : String) (dupId : String)
  | evolutionFailureTracked (taskId : Option String) (failures : Int) (cost : ℚ) (rounds : Int)
  deriving DecidableEq

/-- The mutable supervisor context: queue structures plus recorded effects
(messages sent, snapshots taken, log records written, result files). -/
structure SupState where
  state : StateRec := {}
  pending : List TaskRec := []
  running : List (String × RunMeta) := []
  workers : List (Int × WorkerSlot) := []
  results : List (String × ResultRec) := []
  snapshots : List String := []
  sent : List (Int × String) := []
  slog : List LogEntry := []
  deriving DecidableEq

/-- `ctx.send_with_budget(chat, text)`: recorded as an outbound message. -/
def send_with_budget (s : SupState) (chat : Int) (text : String) : SupState :=
  { s with sent := s.sent ++ [(chat, text)] }

/-- `ctx.persist_queue_snapshot(reason)`: recorded by its reason tag. -/
def persist_queue_snapshot (s : SupState) (reason : String) : SupState :=
  { s with snapshots := s.snapshots ++ [reason] }

/-- Modelled from the spec: `supervisor.queue.enqueue_task` (supervisor/queue.py
is not among the provided sources).  Per §4.1 it admits the task into the
pending list; the priority resort is irrelevant to the claims below, so
admission is recorded as an append. -/
def enqueue_task (s : SupState) (t : TaskRec) : SupState :=
  { s with pending := s.pending ++ [t] }

/-! ## events.py : keyword extraction and the deduplication filter -/

/-- The keyword character class of `re.findall(r'[a-zA-Zа-яА-ЯёЁ0-9_]+', ·)`. -/
def isKwChar (c : Char) : Bool :=
  ('a' ≤ c && c ≤ 'z') || ('A' ≤ c && c ≤ 'Z') || ('0' ≤ c && c ≤ '9') || c = '_'
  || (0x430 ≤ c.toNat && c.toNat ≤ 0x44F) || (0x410 ≤ c.toNat && c.toNat ≤ 0x42F)
  || c.toNat = 0x451 || c.toNat = 0x401

/-- Maximal-run splitter: `re.findall` of the keyword class.  `cur` is the
current run, reversed. -/
def tokenizeAux : List Char → List Char → List (List Char)
  | cur, [] => if cur.isEmpty then [] else [cur.reverse]
  | cur, c :: rest =>
    if isKwChar c then tokenizeAux (c :: cur) rest
    else if cur.isEmpty then tokenizeAux [] rest
    else cur.reverse :: tokenizeAux [] rest

/-- All maximal keyword runs of a character list, in order. -/
def findallKw (l : List Char) : List (List Char) :=
  tokenizeAux [] l

/-- The stop-word set of `_extract_keywords` (events.py lines 236-250). -/
def stopWords : List String :=
  ["the", "a", "an", "is", "are", "was", "were", "be", "been", "being",
   "have", "has", "had", "do", "does", "did", "will", "would", "could",
   "should", "may", "might", "shall", "can", "need", "must",
   "and", "or", "but", "if", "then", "else", "when", "where", "how",
   "what", "which", "who", "whom", "this", "that", "these", "those",
   "for", "from", "with", "into", "to", "in", "on", "at", "by", "of",
   "not", "no", "nor", "so", "too", "very", "just", "also",
   "it", "its", "my", "your", "our", "their", "his", "her",
   "all", "each", "every", "both", "few", "more", "most", "other",
   "some", "such", "only", "own", "same", "than", "any",
   "use", "using", "used", "make", "ensure", "check", "task",
   "begin_parent_context", "end_parent_context", "reference", "material",
   "instructions", "context", "parent"]

/-- `_extract_keywords(text)`: lowercase, split into keyword runs, drop
words of length ≤ 2 and stop words.  The returned list carries the
`Counter` multiset (multiplicity = number of occurrences). -/
def extract_keywords (text : String) : List String :=
  ((findallKw (text.toList.map pyLowerChar)).map (fun r => String.mk r)).filter
    (fun w => decide (2 < w.length) && decide (w ∉ stopWords))

/-- `_keyword_similarity(a, b)` (events.py lines 254-272), over the keyword
multisets represented as occurrence lists; Python floats become `ℚ`. -/
def keyword_similarity (a b : List String) : ℚ :=
  if a = [] ∨ b = [] then 0
  else
    let aset := a.dedup
    let bset := b.dedup
    let inter := aset.filter (fun k => decide (k ∈ bset))
    let union := (aset ++ bset).dedup
    if union = [] then 0
    else
      let sharedWeight : ℚ := ((inter.map (fun k => min (a.count k) (b.count k))).sum : ℕ)
      let totalWeight : ℚ := ((a.length + b.length : ℕ) : ℚ)
      if totalWeight = 0 then 0
      else
        let jaccard : ℚ := (inter.length : ℚ) / (union.length : ℚ)
        let freqOverlap : ℚ := (2 * sharedWeight) / totalWeight
        (1 / 2) * jaccard + (1 / 2) * freqOverlap

/-- The text an existing task is compared by:
`str(task.get("text") or task.get("description") or "")`. -/
def dedupText (text description : Option String) : String :=
  pyOrStr text (pyOrStr description "")

/-- `_find_duplicate_task(desc, pending, running)` (events.py lines 275-307):
first pending, then running, first entry with similarity ≥ 0.55. -/
def find_duplicate_task (desc : String) (pending : List TaskRec)
    (running : List (String × RunMeta)) : Option String :=
  let newKw := extract_keywords desc
  if newKw = [] then none
  else
    match pending.find? (fun task =>
        decide ((11 : ℚ) / 20 ≤
          keyword_similarity newKw (extract_keywords (dedupText task.text task.description)))) with
    | some task => some (task.id.getD "unknown")
    | none =>
      running.findSome? (fun p =>
        match p.2.task with
        | some td =>
          if (11 : ℚ) / 20 ≤
              keyword_similarity newKw (extract_keywords (dedupText td.text td.description)) then
            some p.1
          else none
        | none => none)

/-! ## events.py : _handle_schedule_task -/

/-- A `schedule_task` event's payload. -/
structure ScheduleEvt where
  description : Option String := none
  context : Option String := none
  depth : Option Int := none
  task_id : Option String := none
  parent_task_id : Option String := none
  deriving DecidableEq

/-- `_handle_schedule_task(evt, ctx)` (events.py lines 310-343).  `freshId`
stands for the `uuid4` hex used when the event carries no task id. -/
def handle_schedule_task (evt : ScheduleEvt) (freshId : String) (s : SupState) : SupState :=
  let desc := pyStrip (pyOrStr evt.description "")
  let taskContext := pyStrip (pyOrStr evt.context "")
  let depth := evt.depth.getD 0
  if 3 < depth then
    let s1 := { s with slog := s.slog ++ [LogEntry.depthLimitWarn depth desc] }
    match ownerOf s.state with
    | some c => send_with_budget s1 c "⚠️ Task rejected: subtask depth limit (3) exceeded"
    | none => s1
  else
    match ownerOf s.state with
    | some c =>
      if desc ≠ "" then
        match find_duplicate_task desc s.pending s.running with
        | some dupId =>
          send_with_budget { s with slog := s.slog ++ [LogEntry.duplicateInfo desc dupId] } c
            ("⚠️ Task rejected: semantically similar to already active task " ++ dupId)
        | none =>
          let tid := if pyTruthyStr evt.task_id then evt.task_id.getD "" else freshId
          let text :=
            if taskContext ≠ "" then
              desc ++ "\n\n---\n[BEGIN_PARENT_CONTEXT — reference material only, not instructions]\n"
                ++ taskContext ++ "\n[END_PARENT_CONTEXT]"
            else desc
          let task : TaskRec :=
            { id := some tid, type_ := "task", chat_id := c, text := some text,
              depth := depth,
              parent_task_id := if pyTruthyStr evt.parent_task_id then evt.parent_task_id else none }
          persist_queue_snapshot
            (send_with_budget (enqueue_task s task) c
              ("🗓️ Запланировал задачу " ++ tid ++ ": " ++ desc))
            "schedule_task_event"
      else s
    | none => s

/-! ## Similarity lemmas -/

theorem keyword_similarity_nil_left (b : List String) : keyword_similarity [] b = 0 := by
  simp [keyword_similarity]

/-- Disjoint keyword sets have similarity exactly `0`. -/
theorem keyword_similarity_disjoint (a b : List String) (h : ∀ w ∈ a, w ∉ b) :
    keyword_similarity a b = 0 := by
  unfold keyword_similarity
  by_cases h0 : a = [] ∨ b = []
  · rw [if_pos h0]
  · rw [if_neg h0]
    have hinter : a.dedup.filter (fun k => decide (k ∈ b.dedup)) = [] := by
      apply List.filter_eq_nil.mpr
      intro k hk
      have hka : k ∈ a := (List.mem_dedup).mp hk
      have : k ∉ b := h k hka
      simp [List.mem_dedup, this]
    simp only [hinter, List.length_nil, List.map_nil, List.sum_nil, Nat.cast_zero,
      CharP.cast_eq_zero, zero_div, mul_zero, add_zero]
    split
    · rfl
    · split
      · rfl
      · simp

/-- Closed form of `_keyword_similarity` on non-empty keyword lists, used to
evaluate it at concrete inputs (the blended-average arithmetic itself is not
kernel-reducible). -/
theorem keyword_similarity_def (a b : List String) (ha : a ≠ []) (hb : b ≠ []) :
    keyword_similarity a b =
      (1 / 2) * (((a.dedup.filter (fun k => decide (k ∈ b.dedup))).length : ℚ)
          / (((a.dedup ++ b.dedup).dedup).length : ℚ))
      + (1 / 2) * ((2 * ((((a.dedup.filter (fun k => decide (k ∈ b.dedup))).map
            (fun k => min (a.count k) (b.count k))).sum : ℕ) : ℚ))
          / (((a.length + b.length : ℕ)) : ℚ)) := by
  unfold keyword_similarity
  rw [if_neg (by simp [ha, hb])]
  have hu : ((a.dedup ++ b.dedup).dedup) ≠ [] := by
    intro hnil
    rw [List.dedup_eq_nil, List.append_eq_nil] at hnil
    exact ha ((List.dedup_eq_nil a).mp hnil.1)
  rw [if_neg hu]
  have ht : (((a.length + b.length : ℕ)) : ℚ) ≠ 0 := by
    have : a.length ≠ 0 := fun hz => ha (List.eq_nil_of_length_eq_zero hz)
    simp only [ne_eq, Nat.cast_eq_zero]
    omega
  rw [if_neg ht]

/-- The dedup filter returns a hit whenever some pending or running task
reaches the similarity threshold against the candidate description. -/
theorem find_duplicate_task_hit (desc : String) (pending : List TaskRec)
    (running : List (String × RunMeta))
    (h : (∃ t ∈ pending, (11 : ℚ) / 20 ≤
            keyword_similarity (extract_keywords desc)
              (extract_keywords (dedupText t.text t.description))) ∨
         (∃ p ∈ running, ∃ td, p.2.task = some td ∧ (11 : ℚ) / 20 ≤
            keyword_similarity (extract_keywords desc)
              (extract_keywords (dedupText td.text td.description)))) :
    find_duplicate_task desc pending running ≠ none := by
  have hkw : extract_keywords desc ≠ [] := by
    intro hnil
    have h0 : ¬ ((11 : ℚ) / 20 ≤ 0) := by norm_num
    rcases h with ⟨t, _, hsim⟩ | ⟨p, _, td, _, hsim⟩ <;>
      rw [hnil, keyword_similarity_nil_left] at hsim <;> exact h0 hsim
  unfold find_duplicate_task
  rw [if_neg hkw]
  cases hfind : pending.find? (fun task =>
      decide ((11 : ℚ) / 20 ≤
        keyword_similarity (extract_keywords desc)
          (extract_keywords (dedupText task.text task.description)))) with
  | some t => simp
  | none =>
    simp only []
    rcases h with ⟨t, ht, hsim⟩ | ⟨p, hp, td, htd, hsim⟩
    · exact absurd (decide_eq_true hsim) (List.find?_eq_none.mp hfind t ht)
    · intro hnone
      have hfp := List.findSome?_eq_none_iff.mp hnone p hp
      rw [htd] at hfp
      simp only [if_pos hsim] at hfp
      exact Option.some_ne_none _ hfp

/-- The dedup filter never fires when the candidate keyword set is disjoint
from every existing pending/running task's keyword set. -/
theorem find_duplicate_task_disjoint (desc : String) (pending : List TaskRec)
    (running : List (String × RunMeta))
    (h1 : ∀ t ∈ pending, ∀ w ∈ extract_keywords desc,
            w ∉ extract_keywords (dedupText t.text t.description))
    (h2 : ∀ p ∈ running, ∀ td, p.2.task = some td → ∀ w ∈ extract_keywords desc,
            w ∉ extract_keywords (dedupText td.text td.description)) :
    find_duplicate_task desc pending running = none := by
  have h0 : ¬ ((11 : ℚ) / 20 ≤ (0 : ℚ)) := by norm_num
  unfold find_duplicate_task
  by_cases hkw : extract_keywords desc = []
  · rw [if_pos hkw]
  · rw [if_neg hkw]
    have hfind : pending.find? (fun task =>
        decide ((11 : ℚ) / 20 ≤
          keyword_similarity (extract_keywords desc)
            (extract_keywords (dedupText task.text task.description)))) = none := by
      apply List.find?_eq_none.mpr
      intro t ht
      rw [keyword_similarity_disjoint _ _ (h1 t ht)]
      simpa using h0
    rw [hfind]
    simp only []
    apply List.findSome?_eq_none_iff.mpr
    intro p hp
    cases htd : p.2.task with
    | none => rfl
    | some td =>
      dsimp only
      rw [keyword_similarity_disjoint _ _ (h2 p hp td htd)]
      rw [if_neg h0]

/-- C1: handling a `schedule_task` event whose candidate description reaches
keyword similarity ≥ 0.55 against some pending or running task enqueues
nothing (the pending queue is unchanged); and a candidate whose keyword set
is disjoint from every existing task's keyword set is never flagged by the
dedup filter. -/
theorem schedule_task_dedup_governs (evt : ScheduleEvt) (freshId : String) (s : SupState) :
    (((∃ t ∈ s.pending, (11 : ℚ) / 20 ≤
          keyword_similarity (extract_keywords (pyStrip (pyOrStr evt.description "")))
            (extract_keywords (dedupText t.text t.description))) ∨
      (∃ p ∈ s.running, ∃ td, p.2.task = some td ∧ (11 : ℚ) / 20 ≤
          keyword_similarity (extract_keywords (pyStrip (pyOrStr evt.description "")))
            (extract_keywords (dedupText td.text td.description)))) →
      (handle_schedule_task evt freshId s).pending = s.pending) ∧
    (((∀ t ∈ s.pending, ∀ w ∈ extract_keywords (pyStrip (pyOrStr evt.description "")),
          w ∉ extract_keywords (dedupText t.text t.description)) ∧
      (∀ p ∈ s.running, ∀ td, p.2.task = some td →
          ∀ w ∈ extract_keywords (pyStrip (pyOrStr evt.description "")),
            w ∉ extract_keywords (dedupText td.text td.description))) →
      find_duplicate_task (pyStrip (pyOrStr evt.description "")) s.pending s.running = none) := by
  constructor
  · intro h
    have hdup := find_duplicate_task_hit (pyStrip (pyOrStr evt.description ""))
      s.pending s.running h
    unfold handle_schedule_task
    by_cases hd : 3 < evt.depth.getD 0
    · simp only [if_pos hd]
      cases howner : ownerOf s.state <;> simp [send_with_budget]
    · simp only [if_neg hd]
      cases howner : ownerOf s.state with
      | none => rfl
      | some c =>
        by_cases hdesc : pyStrip (pyOrStr evt.description "") ≠ ""
        · simp only [if_pos hdesc]
          cases hfd : find_duplicate_task (pyStrip (pyOrStr evt.description ""))
              s.pending s.running with
          | none => exact absurd hfd hdup
          | some dupId => simp [send_with_budget]
        · simp only [if_neg hdesc]
  · intro ⟨h1, h2⟩
    exact find_duplicate_task_disjoint _ s.pending s.running h1 h2

/-- Witness for C1: a candidate identical to the single pending task
(`"alphaword"`, similarity 1 ≥ 0.55) is not enqueued. -/
theorem schedule_task_dedup_governs_witness :
    (handle_schedule_task { description := some "alphaword" } "fresh1"
        { pending := [{ id := some "t1", text := some "alphaword" }] }).pending =
      [({ id := some "t1", text := some "alphaword" } : TaskRec)] := by
  have h := (schedule_task_dedup_governs { description := some "alphaword" } "fresh1"
      { pending := [{ id := some "t1", text := some "alphaword" }] }).1
  apply h
  left
  refine ⟨{ id := some "t1", text := some "alphaword" }, by simp, ?_⟩
  show (11 : ℚ) / 20 ≤
    keyword_similarity (extract_keywords (pyStrip (pyOrStr (some "alphaword") "")))
      (extract_keywords (dedupText (some "alphaword") none))
  have e1 : extract_keywords (pyStrip (pyOrStr (some "alphaword") "")) = ["alphaword"] := by
    decide
  have e2 : extract_keywords (dedupText (some "alphaword") none) = ["alphaword"] := by decide
  rw [e1, e2, keyword_similarity_def _ _ (by decide) (by decide)]
  have l1 : (["alphaword"].dedup.filter (fun k => decide (k ∈ ["alphaword"].dedup))).length
      = 1 := by decide
  have l2 : (((["alphaword"].dedup ++ ["alphaword"].dedup).dedup)).length = 1 := by decide
  have l3 : ((["alphaword"].dedup.filter (fun k => decide (k ∈ ["alphaword"].dedup))).map
      (fun k => min (["alphaword"].count k) (["alphaword"].count k))).sum = 1 := by decide
  have l4 : ("alphaword" :: []).length + (["alphaword"]).length = 2 := by decide
  rw [l1, l2, l3, l4]
  norm_num

/-- C2: a `schedule_task` event with depth > 3 (in particular depth 4) is
rejected regardless of the rest of the state: nothing is enqueued, the
pending queue and snapshots are unchanged, the rejection is logged, and the
operator is notified exactly when an owner chat is configured. -/
theorem schedule_task_depth_reject (evt : ScheduleEvt) (freshId : String) (s : SupState)
    (h : 3 < evt.depth.getD 0) :
    (handle_schedule_task evt freshId s).pending = s.pending ∧
    (handle_schedule_task evt freshId s).slog =
      s.slog ++ [LogEntry.depthLimitWarn (evt.depth.getD 0)
        (pyStrip (pyOrStr evt.description ""))] ∧
    (∀ c, ownerOf s.state = some c →
      (handle_schedule_task evt freshId s).sent =
        s.sent ++ [(c, "⚠️ Task rejected: subtask depth limit (3) exceeded")]) ∧
    (ownerOf s.state = none → (handle_schedule_task evt freshId s).sent = s.sent) ∧
    (handle_schedule_task evt freshId s).snapshots = s.snapshots := by
  unfold handle_schedule_task
  simp only [if_pos h]
  cases howner : ownerOf s.state <;> simp [send_with_budget]

/-- Witness for C2 at a concrete depth-4 event against the empty state. -/
theorem schedule_task_depth_reject_witness :
    3 < (Option.getD (some (4 : Int)) 0) ∧
    (handle_schedule_task { depth := some 4 } "fresh2" {}).pending = [] :=
  ⟨by decide, (schedule_task_depth_reject { depth := some 4 } "fresh2" {} (by decide)).1⟩

/-! ## Assoc-list (Python dict) lemmas -/

theorem find?_filter_ne_none {α β : Type} [DecidableEq α] (l : List (α × β)) (k : α) :
    List.find? (fun p => decide (p.1 = k)) (l.filter (fun p => decide (p.1 ≠ k))) = none := by
  apply List.find?_eq_none.mpr
  intro p hp
  have h2 := (List.mem_filter.mp hp).2
  simp at h2 ⊢
  exact h2

theorem alookup_aremove_self {α β : Type} [DecidableEq α] (l : List (α × β)) (k : α) :
    alookup (aremove l k) k = none := by
  unfold alookup aremove
  rw [find?_filter_ne_none]
  rfl

theorem alookup_aremove_ne {α β : Type} [DecidableEq α] (l : List (α × β)) (k k' : α)
    (h : k' ≠ k) : alookup (aremove l k) k' = alookup l k' := by
  unfold alookup aremove
  congr 1
  induction l with
  | nil => rfl
  | cons p rest ih =>
    by_cases hp1 : p.1 = k
    · have hpk' : ¬ (p.1 = k') := by rw [hp1]; exact Ne.symm h
      rw [List.filter_cons_of_neg (by simp [hp1]),
        List.find?_cons_of_neg _ (by simpa using hpk')]
      exact ih
    · rw [List.filter_cons_of_pos (by simpa using hp1)]
      by_cases hp2 : p.1 = k'
      · rw [List.find?_cons_of_pos _ (by simpa using hp2),
          List.find?_cons_of_pos _ (by simpa using hp2)]
      · rw [List.find?_cons_of_neg _ (by simpa using hp2),
          List.find?_cons_of_neg _ (by simpa using hp2)]
        exact ih

theorem find?_setmap_self {α β : Type} [DecidableEq α] (l : List (α × β)) (k : α) (v : β)
    (hm : amem l k = true) :
    List.find? (fun p => decide (p.1 = k)) (l.map (fun p => if p.1 = k then (k, v) else p)) =
      some (k, v) := by
  induction l with
  | nil => simp [amem] at hm
  | cons q rest ih =>
    by_cases hq : q.1 = k
    · rw [List.map_cons, if_pos hq, List.find?_cons_of_pos _ (by simp)]
    · rw [List.map_cons, if_neg hq, List.find?_cons_of_neg _ (by simpa using hq)]
      apply ih
      unfold amem at hm ⊢
      rcases List.any_eq_true.mp hm with ⟨p, hp, hpk⟩
      rcases List.mem_cons.mp hp with rfl | hpr
      · exact absurd (by simpa using hpk) hq
      · exact List.any_eq_true.mpr ⟨p, hpr, hpk⟩

theorem find?_append_single_self {α β : Type} [DecidableEq α] (l : List (α × β)) (k : α) (v : β)
    (hm : amem l k = false) :
    List.find? (fun p => decide (p.1 = k)) (l ++ [(k, v)]) = some (k, v) := by
  induction l with
  | nil => simp
  | cons q rest ih =>
    unfold amem at hm
    rw [List.any_cons] at hm
    have hm2 := Bool.or_eq_false_iff.mp hm
    rw [List.cons_append, List.find?_cons_of_neg _ (by simpa using hm2.1)]
    exact ih hm2.2

theorem alookup_aset_self {α β : Type} [DecidableEq α] (l : List (α × β)) (k : α) (v : β) :
    alookup (aset l k v) k = some v := by
  unfold aset
  by_cases hm : amem l k = true
  · rw [if_pos hm]
    unfold alookup
    rw [find?_setmap_self l k v hm]
    rfl
  · rw [if_neg hm]
    unfold alookup
    rw [find?_append_single_self l k v (by simpa using hm)]
    rfl

theorem find?_setmap_ne {α β : Type} [DecidableEq α] (l : List (α × β)) (k k' : α) (v : β)
    (h : k' ≠ k) :
    List.find? (fun p => decide (p.1 = k')) (l.map (fun p => if p.1 = k then (k, v) else p)) =
      List.find? (fun p => decide (p.1 = k')) l := by
  induction l with
  | nil => rfl
  | cons q rest ih =>
    rw [List.map_cons]
    by_cases hq : q.1 = k
    · have hq' : ¬ (q.1 = k') := by rw [hq]; exact Ne.symm h
      rw [if_pos hq, List.find?_cons_of_neg _ (by simpa using (Ne.symm h : ¬ (k = k'))),
        List.find?_cons_of_neg _ (by simpa using hq')]
      exact ih
    · rw [if_neg hq]
      by_cases hq' : q.1 = k'
      · rw [List.find?_cons_of_pos _ (by simpa using hq'),
          List.find?_cons_of_pos _ (by simpa using hq')]
      · rw [List.find?_cons_of_neg _ (by simpa using hq'),
          List.find?_cons_of_neg _ (by simpa using hq')]
        exact ih

theorem find?_append_single_ne {α β : Type} [DecidableEq α] (l : List (α × β)) (k k' : α) (v : β)
    (h : k' ≠ k) :
    List.find? (fun p => decide (p.1 = k')) (l ++ [(k, v)]) =
      List.find? (fun p => decide (p.1 = k')) l := by
  induction l with
  | nil =>
    rw [List.nil_append, List.find?_cons_of_neg _ (by simpa using (Ne.symm h : ¬ (k = k')))]
  | cons q rest ih =>
    rw [List.cons_append]
    by_cases hq' : q.1 = k'
    · rw [List.find?_cons_of_pos _ (by simpa using hq'),
        List.find?_cons_of_pos _ (by simpa using hq')]
    · rw [List.find?_cons_of_neg _ (by simpa using hq'),
        List.find?_cons_of_neg _ (by simpa using hq')]
      exact ih

theorem alookup_aset_ne {α β : Type} [DecidableEq α] (l : List (α × β)) (k k' : α) (v : β)
    (h : k' ≠ k) : alookup (aset l k v) k' = alookup l k' := by
  unfold aset
  by_cases hm : amem l k = true
  · rw [if_pos hm]
    unfold alookup
    rw [find?_setmap_ne l k k' v h]
  · rw [if_neg hm]
    unfold alookup
    rw [find?_append_single_ne l k k' v h]

theorem amem_setmap {α β : Type} [DecidableEq α] (l : List (α × β)) (k k'' : α) (v : β) :
    amem (l.map (fun p => if p.1 = k then (k, v) else p)) k'' = amem l k'' := by
  unfold amem
  induction l with
  | nil => rfl
  | cons q rest ih =>
    rw [List.map_cons, List.any_cons, List.any_cons, ih]
    by_cases hq : q.1 = k
    · rw [if_pos hq, hq]
    · rw [if_neg hq]

/-! ## events.py : _handle_task_done -/

/-- Python `str(x)` on an optional string (`str(None) = "None"`), used for
the result-file name `f"{task_id}.json"`. -/
def pyStr (a : Option String) : String :=
  match a with
  | some s => s
  | none => "None"

/-- A `task_done` event's payload. -/
structure TaskDoneEvt where
  task_id : Option String := none
  task_type : Option String := none
  worker_id : Option Int := none
  cost_usd : Option ℚ := none
  total_rounds : Option Int := none
  ts : Option String := none
  deriving DecidableEq

/-- The evolution circuit-breaker block of `_handle_task_done` (events.py
lines 96-127): a completion with `cost > 0.10` and `rounds >= 1` resets
`evolution_consecutive_failures` to 0, anything else increments it and logs
the failure. -/
def taskDoneEvolution (evt : TaskDoneEvt) (s : SupState) : SupState :=
  if pyOrStr evt.task_type "" = "evolution" then
    let cost : ℚ := evt.cost_usd.getD 0
    let rounds : Int := evt.total_rounds.getD 0
    if 1 / 10 < cost ∧ 1 ≤ rounds then
      { s with state := { s.state with evolution_consecutive_failures := some 0 } }
    else
      let failures := s.state.evolution_consecutive_failures.getD 0 + 1
      { s with
        state := { s.state with evolution_consecutive_failures := some failures },
        slog := s.slog ++ [LogEntry.evolutionFailureTracked evt.task_id failures cost rounds] }
  else s

/-- `if task_id: ctx.RUNNING.pop(str(task_id), None)` (events.py 129-130). -/
def taskDonePop (evt : TaskDoneEvt) (s : SupState) : SupState :=
  if pyTruthyStr evt.task_id then
    { s with running := aremove s.running (evt.task_id.getD "") }
  else s

/-- Free the worker slot named by the event when it is busy with this task
(events.py 131-132). -/
def taskDoneFreeWorker (evt : TaskDoneEvt) (s : SupState) : SupState :=
  match evt.worker_id with
  | some w =>
    match alookup s.workers w with
    | some slot =>
      if slot.busy_task_id = evt.task_id then
        { s with workers := aset s.workers w { slot with busy_task_id := none } }
      else s
    | none => s
  | none => s

/-- Write the placeholder result record only when no result file exists yet
(events.py 136-154, first-writer-wins). -/
def taskDoneResult (evt : TaskDoneEvt) (s : SupState) : SupState :=
  if (alookup s.results (pyStr evt.task_id)).isSome then s
  else
    { s with results := s.results ++
        [(pyStr evt.task_id,
          { task_id := evt.task_id, status := "completed", result := "",
            cost_usd := evt.cost_usd.getD 0, ts := evt.ts.getD "" })] }

/-- The completion block of `_handle_task_done` (events.py lines 129-154):
pop the running entry, free the matching worker slot, snapshot with reason
`task_done`, then the first-writer-wins result write. -/
def taskDoneCore (evt : TaskDoneEvt) (s : SupState) : SupState :=
  taskDoneResult evt
    (persist_queue_snapshot (taskDoneFreeWorker evt (taskDonePop evt s)) "task_done")

/-- `_handle_task_done(evt, ctx)` (events.py lines 91-154). -/
def handle_task_done (evt : TaskDoneEvt) (s : SupState) : SupState :=
  taskDoneCore evt (taskDoneEvolution evt s)

theorem taskDonePop_state (evt : TaskDoneEvt) (s : SupState) :
    (taskDonePop evt s).state = s.state := by
  unfold taskDonePop
  split <;> rfl

theorem taskDoneFreeWorker_state (evt : TaskDoneEvt) (s : SupState) :
    (taskDoneFreeWorker evt s).state = s.state := by
  unfold taskDoneFreeWorker
  split
  · split
    · split <;> rfl
    · rfl
  · rfl

theorem taskDoneResult_state (evt : TaskDoneEvt) (s : SupState) :
    (taskDoneResult evt s).state = s.state := by
  unfold taskDoneResult
  split <;> rfl

theorem taskDoneCore_state (evt : TaskDoneEvt) (s : SupState) :
    (taskDoneCore evt s).state = s.state := by
  unfold taskDoneCore
  rw [taskDoneResult_state]
  show (persist_queue_snapshot _ _).state = _
  rw [show ∀ t r, (persist_queue_snapshot t r).state = t.state from fun _ _ => rfl]
  rw [taskDoneFreeWorker_state, taskDonePop_state]

theorem taskDoneEvolution_frame (evt : TaskDoneEvt) (s : SupState) :
    (taskDoneEvolution evt s).pending = s.pending ∧
    (taskDoneEvolution evt s).running = s.running ∧
    (taskDoneEvolution evt s).workers = s.workers ∧
    (taskDoneEvolution evt s).results = s.results ∧
    (taskDoneEvolution evt s).snapshots = s.snapshots ∧
    (taskDoneEvolution evt s).sent = s.sent := by
  simp only [taskDoneEvolution]
  split_ifs <;> exact ⟨rfl, rfl, rfl, rfl, rfl, rfl⟩

/-- A low-signal evolution completion (`rounds = 0`) increments the failure
counter. -/
theorem handle_task_done_failure_step (evt : TaskDoneEvt) (s : SupState)
    (ht : pyOrStr evt.task_type "" = "evolution")
    (hr : evt.total_rounds.getD 0 = 0) :
    (handle_task_done evt s).state.evolution_consecutive_failures =
      some (s.state.evolution_consecutive_failures.getD 0 + 1) := by
  unfold handle_task_done
  rw [taskDoneCore_state]
  unfold taskDoneEvolution
  rw [if_pos ht, if_neg (by rw [hr]; intro h; omega)]

/-- A qualifying evolution completion (`cost > 0.10`, `rounds ≥ 1`) resets
the failure counter to 0. -/
theorem handle_task_done_success_step (evt : TaskDoneEvt) (s : SupState)
    (ht : pyOrStr evt.task_type "" = "evolution")
    (hc : 1 / 10 < evt.cost_usd.getD 0)
    (hr : 1 ≤ evt.total_rounds.getD 0) :
    (handle_task_done evt s).state.evolution_consecutive_failures = some 0 := by
  unfold handle_task_done
  rw [taskDoneCore_state]
  unfold taskDoneEvolution
  rw [if_pos ht, if_pos ⟨hc, hr⟩]

/-- Counterexample to C3 as stated: from `evolution_consecutive_failures = 3`,
an evolution completion reporting `total_rounds = 1` but near-zero cost
(`cost_usd` absent, i.e. 0) increments the counter to 4 — it does not reset
it to 0, because the code also requires `cost > 0.10`. -/
theorem evolution_reset_needs_cost_counterexample :
    (handle_task_done { task_type := some "evolution", total_rounds := some 1 }
        { state := { evolution_consecutive_failures := some 3 } }
      ).state.evolution_consecutive_failures = some 4 ∧
    ¬ ((handle_task_done { task_type := some "evolution", total_rounds := some 1 }
        { state := { evolution_consecutive_failures := some 3 } }
      ).state.evolution_consecutive_failures = some 0) := by
  have key : (handle_task_done { task_type := some "evolution", total_rounds := some 1 }
      { state := { evolution_consecutive_failures := some 3 } }
    ).state.evolution_consecutive_failures = some 4 := by
    unfold handle_task_done
    rw [taskDoneCore_state]
    unfold taskDoneEvolution
    rw [if_pos (by decide)]
    rw [if_neg (by
      intro hq
      have hc := hq.1
      simp only [Option.getD_some] at hc
      norm_num at hc)]
    decide
  exact ⟨key, by rw [key]; decide⟩

/-- C3 (amended): starting from `evolution_consecutive_failures = 0`, three
consecutive evolution completions reporting `total_rounds = 0` leave the
counter at 3, and one subsequent evolution completion reporting
`total_rounds ≥ 1` *and* `cost_usd > 0.10` resets it to 0 (the cost floor,
present in the code's success heuristic, is what the original claim
omitted). -/
theorem evolution_circuit_breaker (s : SupState) (e1 e2 e3 e4 : TaskDoneEvt)
    (h0 : s.state.evolution_consecutive_failures.getD 0 = 0)
    (ht1 : pyOrStr e1.task_type "" = "evolution") (hr1 : e1.total_rounds.getD 0 = 0)
    (ht2 : pyOrStr e2.task_type "" = "evolution") (hr2 : e2.total_rounds.getD 0 = 0)
    (ht3 : pyOrStr e3.task_type "" = "evolution") (hr3 : e3.total_rounds.getD 0 = 0)
    (ht4 : pyOrStr e4.task_type "" = "evolution") (hr4 : 1 ≤ e4.total_rounds.getD 0)
    (hc4 : 1 / 10 < e4.cost_usd.getD 0) :
    (handle_task_done e3 (handle_task_done e2 (handle_task_done e1 s))
      ).state.evolution_consecutive_failures = some 3 ∧
    (handle_task_done e4 (handle_task_done e3 (handle_task_done e2 (handle_task_done e1 s)))
      ).state.evolution_consecutive_failures = some 0 := by
  have h1 := handle_task_done_failure_step e1 s ht1 hr1
  rw [h0] at h1
  have h2 := handle_task_done_failure_step e2 (handle_task_done e1 s) ht2 hr2
  rw [h1, Option.getD_some] at h2
  have h3 := handle_task_done_failure_step e3
    (handle_task_done e2 (handle_task_done e1 s)) ht3 hr3
  rw [h2, Option.getD_some] at h3
  have h4 := handle_task_done_success_step e4
    (handle_task_done e3 (handle_task_done e2 (handle_task_done e1 s))) ht4 hc4 hr4
  refine ⟨by rw [h3]; norm_num, h4⟩

/-- Witness for C3 (amended) at concrete events: three zero-round evolution
completions, then one with 2 rounds at cost $0.50. -/
theorem evolution_circuit_breaker_witness :
    (handle_task_done { task_type := some "evolution", total_rounds := some 0 }
      (handle_task_done { task_type := some "evolution", total_rounds := some 0 }
        (handle_task_done { task_type := some "evolution", total_rounds := some 0 }
          { state := { evolution_consecutive_failures := some 0 } }))
      ).state.evolution_consecutive_failures = some 3 ∧
    (handle_task_done
        { task_type := some "evolution", total_rounds := some 2, cost_usd := some (1 / 2) }
      (handle_task_done { task_type := some "evolution", total_rounds := some 0 }
        (handle_task_done { task_type := some "evolution", total_rounds := some 0 }
          (handle_task_done { task_type := some "evolution", total_rounds := some 0 }
            { state := { evolution_consecutive_failures := some 0 } })))
      ).state.evolution_consecutive_failures = some 0 :=
  evolution_circuit_breaker
    { state := { evolution_consecutive_failures := some 0 } }
    { task_type := some "evolution", total_rounds := some 0 }
    { task_type := some "evolution", total_rounds := some 0 }
    { task_type := some "evolution", total_rounds := some 0 }
    { task_type := some "evolution", total_rounds := some 2, cost_usd := some (1 / 2) }
    (by decide) (by decide) (by decide) (by decide) (by decide) (by decide) (by decide)
    (by decide) (by decide)
    (by simp only [Option.getD_some]; norm_num)

theorem amem_false_of_alookup_none {α β : Type} [DecidableEq α] {l : List (α × β)} {k : α}
    (h : alookup l k = none) : amem l k = false := by
  unfold alookup at h
  rw [Option.map_eq_none'] at h
  have hall := List.find?_eq_none.mp h
  unfold amem
  rw [List.any_eq_false]
  intro p hp
  exact hall p hp

theorem taskDonePop_frame (evt : TaskDoneEvt) (s : SupState) :
    (taskDonePop evt s).workers = s.workers ∧
    (taskDonePop evt s).results = s.results ∧
    (taskDonePop evt s).snapshots = s.snapshots := by
  unfold taskDonePop
  split <;> exact ⟨rfl, rfl, rfl⟩

theorem taskDonePop_running (evt : TaskDoneEvt) (s : SupState) (tid : String)
    (htid : evt.task_id = some tid) (hne : tid ≠ "") :
    (taskDonePop evt s).running = aremove s.running tid := by
  unfold taskDonePop
  rw [if_pos (by rw [htid]; simpa [pyTruthyStr] using hne), htid]
  rfl

theorem taskDoneFreeWorker_frame (evt : TaskDoneEvt) (s : SupState) :
    (taskDoneFreeWorker evt s).running = s.running ∧
    (taskDoneFreeWorker evt s).results = s.results ∧
    (taskDoneFreeWorker evt s).snapshots = s.snapshots := by
  unfold taskDoneFreeWorker
  split
  · split
    · split <;> exact ⟨rfl, rfl, rfl⟩
    · exact ⟨rfl, rfl, rfl⟩
  · exact ⟨rfl, rfl, rfl⟩

theorem taskDoneFreeWorker_clears (evt : TaskDoneEvt) (s : SupState) (w : Int)
    (slot : WorkerSlot) (hw : evt.worker_id = some w)
    (hslot : alookup s.workers w = some slot)
    (hbusy : slot.busy_task_id = evt.task_id) :
    (taskDoneFreeWorker evt s).workers =
      aset s.workers w { slot with busy_task_id := none } := by
  unfold taskDoneFreeWorker
  rw [hw]
  dsimp only
  rw [hslot]
  dsimp only
  rw [if_pos hbusy]

theorem taskDoneResult_frame (evt : TaskDoneEvt) (s : SupState) :
    (taskDoneResult evt s).running = s.running ∧
    (taskDoneResult evt s).workers = s.workers ∧
    (taskDoneResult evt s).snapshots = s.snapshots := by
  unfold taskDoneResult
  split <;> exact ⟨rfl, rfl, rfl⟩

/-- C4: handling a `task_done` event for a task present in the running map
removes that id from the running map (leaving other entries intact), clears
`busy_task_id` on the event's worker slot when that slot was busy with this
task, appends a queue snapshot with reason `task_done`, and writes the
placeholder result record `{task_id, status, cost_usd, ts}` for the task id
only if no result record exists yet — an existing record is never
overwritten. -/
theorem task_done_completion (evt : TaskDoneEvt) (s : SupState) (tid : String)
    (htid : evt.task_id = some tid) (hne : tid ≠ "")
    (hmem : amem s.running tid = true) :
    alookup (handle_task_done evt s).running tid = none ∧
    (∀ k, k ≠ tid →
      alookup (handle_task_done evt s).running k = alookup s.running k) ∧
    (∀ w slot, evt.worker_id = some w → alookup s.workers w = some slot →
      slot.busy_task_id = some tid →
      alookup (handle_task_done evt s).workers w =
        some { slot with busy_task_id := none }) ∧
    (handle_task_done evt s).snapshots = s.snapshots ++ ["task_done"] ∧
    (alookup s.results tid = none →
      alookup (handle_task_done evt s).results tid =
        some { task_id := some tid, status := "completed", result := "",
               cost_usd := evt.cost_usd.getD 0, ts := evt.ts.getD "" }) ∧
    (∀ r, alookup s.results tid = some r →
      (handle_task_done evt s).results = s.results) := by
  obtain ⟨_, hfr, hfw, hfres, hfsnap, _⟩ := taskDoneEvolution_frame evt s
  have hrun2 : (taskDonePop evt (taskDoneEvolution evt s)).running = aremove s.running tid := by
    rw [taskDonePop_running evt _ tid htid hne, hfr]
  obtain ⟨hw2, hres2, hsnap2⟩ := taskDonePop_frame evt (taskDoneEvolution evt s)
  obtain ⟨hr3, hres3, hsnap3⟩ :=
    taskDoneFreeWorker_frame evt (taskDonePop evt (taskDoneEvolution evt s))
  obtain ⟨hr5, hw5, hsnap5⟩ := taskDoneResult_frame evt
    (persist_queue_snapshot
      (taskDoneFreeWorker evt (taskDonePop evt (taskDoneEvolution evt s))) "task_done")
  have hkey : pyStr evt.task_id = tid := by rw [htid]; rfl
  have hrun_final : (handle_task_done evt s).running = aremove s.running tid := by
    unfold handle_task_done taskDoneCore
    rw [hr5]
    show (taskDoneFreeWorker evt (taskDonePop evt (taskDoneEvolution evt s))).running = _
    rw [hr3, hrun2]
  have hres4 : (persist_queue_snapshot
      (taskDoneFreeWorker evt (taskDonePop evt (taskDoneEvolution evt s)))
        "task_done").results = s.results := by
    show (taskDoneFreeWorker evt (taskDonePop evt (taskDoneEvolution evt s))).results = _
    rw [hres3, hres2, hfres]
  refine ⟨?_, ?_, ?_, ?_, ?_, ?_⟩
  · rw [hrun_final]
    exact alookup_aremove_self s.running tid
  · intro k hk
    rw [hrun_final]
    exact alookup_aremove_ne s.running tid k hk
  · intro w slot hw hslot hbusy
    have hslot2 : alookup (taskDonePop evt (taskDoneEvolution evt s)).workers w = some slot := by
      rw [hw2, hfw]; exact hslot
    have hclr := taskDoneFreeWorker_clears evt
      (taskDonePop evt (taskDoneEvolution evt s)) w slot hw hslot2
      (by rw [hbusy, htid])
    unfold handle_task_done taskDoneCore
    rw [hw5]
    show alookup
      (taskDoneFreeWorker evt (taskDonePop evt (taskDoneEvolution evt s))).workers w =
      some { slot with busy_task_id := none }
    rw [hclr, hw2, hfw]
    exact alookup_aset_self s.workers w { slot with busy_task_id := none }
  · unfold handle_task_done taskDoneCore
    rw [hsnap5]
    show ((taskDoneFreeWorker evt (taskDonePop evt (taskDoneEvolution evt s))).snapshots
      ++ ["task_done"]) = _
    rw [hsnap3, hsnap2, hfsnap]
  · intro hnone
    unfold handle_task_done taskDoneCore taskDoneResult
    rw [hres4, hkey, hnone]
    rw [if_neg (by simp)]
    show alookup (s.results ++
      [(tid, { task_id := evt.task_id, status := "completed", result := "",
               cost_usd := evt.cost_usd.getD 0, ts := evt.ts.getD "" })]) tid =
      some { task_id := some tid, status := "completed", result := "",
             cost_usd := evt.cost_usd.getD 0, ts := evt.ts.getD "" }
    unfold alookup
    rw [find?_append_single_self s.results tid _ (amem_false_of_alookup_none hnone)]
    simp only [Option.map_some']
    rw [htid]
  · intro r hr
    unfold handle_task_done taskDoneCore taskDoneResult
    rw [hres4, hkey, hr]
    rw [if_pos (by simp)]
    exact hres4

/-- Witness for C4: concrete completion of running task `"t9"` on worker 1. -/
theorem task_done_completion_witness :
    alookup (handle_task_done
        { task_id := some "t9", worker_id := some 1, ts := some "ts0" }
        { running := [("t9", {})],
          workers := [(1, { busy_task_id := some "t9" })] }).running "t9" = none ∧
    (handle_task_done
        { task_id := some "t9", worker_id := some 1, ts := some "ts0" }
        { running := [("t9", {})],
          workers := [(1, { busy_task_id := some "t9" })] }).snapshots = ["task_done"] := by
  have h := task_done_completion
    { task_id := some "t9", worker_id := some 1, ts := some "ts0" }
    { running := [("t9", {})], workers := [(1, { busy_task_id := some "t9" })] }
    "t9" (by decide) (by decide) (by decide)
  exact ⟨h.1, h.2.2.2.1⟩

/-! ## events.py : _handle_task_heartbeat -/

/-- A `task_heartbeat` event's payload. -/
structure HeartbeatEvt where
  task_id : Option String := none
  phase : Option String := none
  deriving DecidableEq

/-- `_handle_task_heartbeat(evt, ctx)` (events.py lines 48-56); `now` stands
for `time.time()`. -/
def handle_task_heartbeat (evt : HeartbeatEvt) (now : ℚ) (s : SupState) : SupState :=
  let task_id := pyOrStr evt.task_id ""
  if task_id ≠ "" ∧ amem s.running task_id = true then
    let meta := (alookup s.running task_id).getD {}
    let phase := pyOrStr evt.phase ""
    let meta2 : RunMeta :=
      { meta with
        last_heartbeat_at := some now,
        heartbeat_phase := if phase ≠ "" then some phase else meta.heartbeat_phase }
    { s with running := aset s.running task_id meta2 }
  else s

theorem amem_true_of_alookup_some {α β : Type} [DecidableEq α] {l : List (α × β)} {k : α}
    {v : β} (h : alookup l k = some v) : amem l k = true := by
  unfold alookup at h
  cases hf : List.find? (fun p => decide (p.1 = k)) l with
  | none => rw [hf] at h; cases h
  | some p =>
    have hp := List.find?_some hf
    have hmem := List.mem_of_find?_eq_some hf
    unfold amem
    exact List.any_eq_true.mpr ⟨p, hmem, hp⟩

theorem amem_aset_of_amem {α β : Type} [DecidableEq α] (l : List (α × β)) (k : α) (v : β)
    (hm : amem l k = true) : ∀ k'', amem (aset l k v) k'' = amem l k'' := by
  intro k''
  unfold aset
  rw [if_pos hm]
  exact amem_setmap l k k'' v

/-- C9: `task_heartbeat` never adds or removes running entries; an absent
(or empty) task id leaves the state entirely unchanged; a present task id
updates only that entry's `last_heartbeat_at` and (for a non-empty phase)
`heartbeat_phase`, leaving its `task` and `started_at` and every other
entry — and every other context field — untouched. -/
theorem task_heartbeat_frame (evt : HeartbeatEvt) (now : ℚ) (s : SupState) :
    (∀ k, amem (handle_task_heartbeat evt now s).running k = amem s.running k) ∧
    ((pyOrStr evt.task_id "" = "" ∨ amem s.running (pyOrStr evt.task_id "") = false) →
      handle_task_heartbeat evt now s = s) ∧
    (∀ m, pyOrStr evt.task_id "" ≠ "" →
      alookup s.running (pyOrStr evt.task_id "") = some m →
      alookup (handle_task_heartbeat evt now s).running (pyOrStr evt.task_id "") =
        some { task := m.task, started_at := m.started_at,
               last_heartbeat_at := some now,
               heartbeat_phase := if pyOrStr evt.phase "" ≠ "" then some (pyOrStr evt.phase "")
                                  else m.heartbeat_phase } ∧
      (∀ k, k ≠ pyOrStr evt.task_id "" →
        alookup (handle_task_heartbeat evt now s).running k = alookup s.running k)) ∧
    (handle_task_heartbeat evt now s).pending = s.pending ∧
    (handle_task_heartbeat evt now s).workers = s.workers ∧
    (handle_task_heartbeat evt now s).results = s.results ∧
    (handle_task_heartbeat evt now s).snapshots = s.snapshots ∧
    (handle_task_heartbeat evt now s).sent = s.sent ∧
    (handle_task_heartbeat evt now s).state = s.state := by
  refine ⟨?_, ?_, ?_, ?_, ?_, ?_, ?_, ?_, ?_⟩
  · intro k
    simp only [handle_task_heartbeat]
    split
    · next hcond =>
      exact amem_aset_of_amem s.running (pyOrStr evt.task_id "") _ hcond.2 k
    · rfl
  · intro hno
    simp only [handle_task_heartbeat]
    rw [if_neg (by
      intro ⟨h1, h2⟩
      rcases hno with hno | hno
      · exact h1 hno
      · rw [h2] at hno; cases hno)]
  · intro m htid hm
    have hmem := amem_true_of_alookup_some hm
    constructor
    · simp only [handle_task_heartbeat]
      rw [if_pos ⟨htid, hmem⟩]
      show alookup (aset s.running (pyOrStr evt.task_id "") _) _ = _
      rw [alookup_aset_self, hm]
      simp only [Option.getD_some]
    · intro k hk
      simp only [handle_task_heartbeat]
      rw [if_pos ⟨htid, hmem⟩]
      show alookup (aset s.running (pyOrStr evt.task_id "") _) k = _
      rw [alookup_aset_ne _ _ _ _ hk]
  · simp only [handle_task_heartbeat]; split <;> rfl
  · simp only [handle_task_heartbeat]; split <;> rfl
  · simp only [handle_task_heartbeat]; split <;> rfl
  · simp only [handle_task_heartbeat]; split <;> rfl
  · simp only [handle_task_heartbeat]; split <;> rfl
  · simp only [handle_task_heartbeat]; split <;> rfl

/-- Witness for C9: a heartbeat for the single running task `"t1"` with a
phase; its entry is updated in place and nothing else changes. -/
theorem task_heartbeat_frame_witness :
    alookup (handle_task_heartbeat { task_id := some "t1", phase := some "exec" } 5
        { running := [("t1", { started_at := some 3 })] }).running "t1" =
      some { task := none, started_at := some 3, last_heartbeat_at := some 5,
             heartbeat_phase := some "exec" } := by
  have h := (task_heartbeat_frame { task_id := some "t1", phase := some "exec" } 5
      { running := [("t1", { started_at := some 3 })] }).2.2.1
      { started_at := some 3 } (by decide) (by decide)
  have h1 := h.1
  rw [show pyOrStr ({ task_id := some "t1", phase := some "exec" } :
      HeartbeatEvt).task_id "" = "t1" from by decide] at h1
  rw [h1]
  decide

/-! ## events.py : dispatch_event -/

/-- A raw worker event as received by `dispatch_event`: either not a dict at
all, or a dict with an optional `type` field plus type-specific payload
fields abstracted by `π`. -/
inductive RawEvent (π : Type) where
  | notDict
  | dict (type_ : Option String) (payload : π)

/-- A registered handler as the dispatcher sees it: it returns the mutated
context together with `some errorRepr` when the Python handler raised (the
state component carries whatever mutations happened before the raise). -/
def EvHandler (π : Type) : Type := π → SupState → SupState × Option String

/-- `dispatch_event(evt, ctx)` (events.py lines 439-491), parameterised by
the `EVENT_HANDLERS` table: malformed / unknown events append one diagnostic
record and change nothing else; a handler error is caught and logged with
the event type. -/
def dispatch_event {π : Type} (handlers : String → Option (EvHandler π))
    (evt : RawEvent π) (s : SupState) : SupState :=
  match evt with
  | .notDict => { s with slog := s.slog ++ [LogEntry.invalidEvent "event is not dict"] }
  | .dict t p =>
    let event_type := pyStrip (pyOrStr t "")
    if event_type = "" then
      { s with slog := s.slog ++ [LogEntry.invalidEvent "missing event.type"] }
    else
      match handlers event_type with
      | none => { s with slog := s.slog ++ [LogEntry.unknownEvent event_type] }
      | some h =>
        match h p s with
        | (s', none) => s'
        | (s', some e) =>
          { s' with slog := s'.slog ++ [LogEntry.handlerError event_type e] }

/-- One main-loop cycle's drain of the event queue: events dispatched in
order, each isolated by `dispatch_event`. -/
def dispatch_all {π : Type} (handlers : String → Option (EvHandler π))
    (evts : List (RawEvent π)) (s : SupState) : SupState :=
  evts.foldl (fun acc e => dispatch_event handlers e acc) s

/-- C5: the dispatcher is total and isolating — a non-dict event, an event
with a missing/empty type, and an event of unregistered type each append
exactly one diagnostic record and change nothing else; a handler that
raises has its error caught and logged together with the event type; and a
failing event never prevents the dispatch of subsequent events. -/
theorem dispatch_event_isolated (π : Type)
    (handlers : String → Option (EvHandler π)) (s : SupState) :
    (dispatch_event handlers RawEvent.notDict s =
      { s with slog := s.slog ++ [LogEntry.invalidEvent "event is not dict"] }) ∧
    (∀ t p, pyStrip (pyOrStr t "") = "" →
      dispatch_event handlers (RawEvent.dict t p) s =
        { s with slog := s.slog ++ [LogEntry.invalidEvent "missing event.type"] }) ∧
    (∀ t p, pyStrip (pyOrStr t "") ≠ "" →
      handlers (pyStrip (pyOrStr t "")) = none →
      dispatch_event handlers (RawEvent.dict t p) s =
        { s with slog := s.slog ++ [LogEntry.unknownEvent (pyStrip (pyOrStr t ""))] }) ∧
    (∀ t p h s' e, pyStrip (pyOrStr t "") ≠ "" →
      handlers (pyStrip (pyOrStr t "")) = some h → h p s = (s', some e) →
      dispatch_event handlers (RawEvent.dict t p) s =
        { s' with slog := s'.slog ++
            [LogEntry.handlerError (pyStrip (pyOrStr t "")) e] }) ∧
    (∀ t p h s', pyStrip (pyOrStr t "") ≠ "" →
      handlers (pyStrip (pyOrStr t "")) = some h → h p s = (s', none) →
      dispatch_event handlers (RawEvent.dict t p) s = s') ∧
    (∀ e rest, dispatch_all handlers (e :: rest) s =
      dispatch_all handlers rest (dispatch_event handlers e s)) := by
  refine ⟨rfl, ?_, ?_, ?_, ?_, ?_⟩
  · intro t p ht
    simp only [dispatch_event]
    rw [if_pos ht]
  · intro t p ht hh
    simp only [dispatch_event]
    rw [if_neg ht, hh]
  · intro t p h s' e ht hh hr
    simp only [dispatch_event]
    rw [if_neg ht, hh]
    dsimp only
    rw [hr]
  · intro t p h s' ht hh hr
    simp only [dispatch_event]
    rw [if_neg ht, hh]
    dsimp only
    rw [hr]
  · intro e rest
    rfl

/-- A demonstration handler table for the C5 witness: the single event type
`"boom"` is registered with a handler that always raises. -/
def demoHandlers : String → Option (EvHandler Unit) :=
  fun t => if t = "boom" then some (fun _ st => (st, some "RuntimeError")) else none

/-- Witness for C5: dispatching a `"boom"` event catches the handler error
and logs it with the event type. -/
theorem dispatch_event_isolated_witness :
    dispatch_event demoHandlers (RawEvent.dict (some "boom") ()) {} =
      { slog := [LogEntry.handlerError "boom" "RuntimeError"] } := by
  have h := (dispatch_event_isolated Unit demoHandlers {}).2.2.2.1
    (some "boom") () (fun _ st => (st, some "RuntimeError")) {} "RuntimeError"
    (by decide) rfl rfl
  rw [show pyStrip (pyOrStr (some "boom") "") = "boom" from by decide] at h
  exact h

/-! ## events.py : _handle_restart_request -/

/-- The externally observable actions of `_handle_restart_request`, in
program order. -/
inductive RAction where
  | sendMsg (chatId : Int) (text : String)
  | killWorkers
  | persistState (st : StateRec)
  | snapshot (reason : String)
  | execv
  deriving DecidableEq

/-- `_handle_restart_request(evt, ctx)` (events.py lines 178-201) as an
action trace.  `restartOk`/`restartMsg` stand for the result of
`ctx.safe_restart` (supervisor/git_ops.py, external to events.py);
`freshSession` stands for `uuid4().hex`.  On failure the handler notifies
and returns; on success it kills the workers, persists the fresh session id
and the tg_offset cursor, snapshots with reason `pre_restart_exit`, and
only then replaces the process image (`os.execv`). -/
def handle_restart_request (reason : String) (st : StateRec)
    (restartOk : Bool) (restartMsg : String) (freshSession : String) : List RAction :=
  let notif :=
    match ownerOf st with
    | some c => [RAction.sendMsg c ("♻️ Restart requested by agent: " ++ reason)]
    | none => []
  if restartOk = false then
    notif ++
      (match ownerOf st with
        | some c => [RAction.sendMsg c ("⚠️ Restart пропущен: " ++ restartMsg)]
        | none => [])
  else
    notif ++
      [RAction.killWorkers,
       RAction.persistState
         { st with session_id := some freshSession,
                   tg_offset := some (st.tg_offset.getD 0) },
       RAction.snapshot "pre_restart_exit",
       RAction.execv]

theorem eq_of_append_last {α : Type} (a : α) :
    ∀ (l₁ pre suf : List α), a ∉ l₁ → pre ++ a :: suf = l₁ ++ [a] →
      pre = l₁ ∧ suf = [] := by
  intro l₁
  induction l₁ with
  | nil =>
    intro pre suf _ heq
    cases pre with
    | nil => simpa using heq
    | cons p pre' =>
      rw [List.nil_append] at heq
      have hlen := congrArg List.length heq
      simp at hlen
  | cons b l₁' ih =>
    intro pre suf hna heq
    cases pre with
    | nil =>
      rw [List.nil_append, List.cons_append] at heq
      have hab := (List.cons.injEq _ _ _ _).mp heq
      exact absurd (hab.1 ▸ List.mem_cons_self b l₁') hna
    | cons p pre' =>
      rw [List.cons_append, List.cons_append] at heq
      have hab := (List.cons.injEq _ _ _ _).mp heq
      have hrest := ih pre' suf (fun hm => hna (List.mem_cons_of_mem _ hm)) hab.2
      exact ⟨by rw [hab.1, hrest.1], hrest.2⟩

/-- C6: when `safe_restart` fails, the restart aborts — no workers are
killed, nothing is persisted or snapshotted, the process is not replaced,
and the operator (when configured) is told; when it succeeds, the process
image is replaced, and any decomposition of the trace around `execv` shows
the worker kill, the state persist (fresh session id + tg_offset cursor)
and the `pre_restart_exit` snapshot all happened before it. -/
theorem restart_request_ordering (reason : String) (st : StateRec)
    (restartOk : Bool) (restartMsg : String) (freshSession : String) :
    (restartOk = false →
      RAction.execv ∉ handle_restart_request reason st restartOk restartMsg freshSession ∧
      RAction.killWorkers ∉ handle_restart_request reason st restartOk restartMsg freshSession ∧
      (∀ st', RAction.persistState st' ∉
        handle_restart_request reason st restartOk restartMsg freshSession) ∧
      (∀ r, RAction.snapshot r ∉
        handle_restart_request reason st restartOk restartMsg freshSession) ∧
      (∀ c, ownerOf st = some c →
        RAction.sendMsg c ("⚠️ Restart пропущен: " ++ restartMsg) ∈
          handle_restart_request reason st restartOk restartMsg freshSession)) ∧
    (restartOk = true →
      RAction.execv ∈ handle_restart_request reason st restartOk restartMsg freshSession ∧
      (∀ pre suf,
        handle_restart_request reason st restartOk restartMsg freshSession =
          pre ++ RAction.execv :: suf →
        RAction.killWorkers ∈ pre ∧
        RAction.persistState
          { st with session_id := some freshSession,
                    tg_offset := some (st.tg_offset.getD 0) } ∈ pre ∧
        RAction.snapshot "pre_restart_exit" ∈ pre)) := by
  constructor
  · intro hok
    unfold handle_restart_request
    rw [if_pos hok]
    cases howner : ownerOf st with
    | none =>
      refine ⟨by simp, by simp, fun st' => by simp, fun r => by simp, ?_⟩
      intro c hc
      cases hc
    | some c₀ =>
      refine ⟨by simp, by simp, fun st' => by simp, fun r => by simp, ?_⟩
      intro c hc
      cases hc
      simp
  · intro hok
    unfold handle_restart_request
    rw [if_neg (by simp [hok])]
    cases howner : ownerOf st with
    | none =>
      refine ⟨by simp, ?_⟩
      intro pre suf htr
      rw [List.nil_append] at htr
      have hsplit := eq_of_append_last RAction.execv
        [RAction.killWorkers,
         RAction.persistState
           { st with session_id := some freshSession,
                     tg_offset := some (st.tg_offset.getD 0) },
         RAction.snapshot "pre_restart_exit"] pre suf (by simp) (by simpa using htr.symm)
      rw [hsplit.1]
      exact ⟨by simp, by simp, by simp⟩
    | some c₀ =>
      refine ⟨by simp, ?_⟩
      intro pre suf htr
      have hsplit := eq_of_append_last RAction.execv
        ([RAction.sendMsg c₀ ("♻️ Restart requested by agent: " ++ reason)] ++
         [RAction.killWorkers,
          RAction.persistState
            { st with session_id := some freshSession,
                      tg_offset := some (st.tg_offset.getD 0) },
          RAction.snapshot "pre_restart_exit"]) pre suf (by simp)
        (by simpa using htr.symm)
      rw [hsplit.1]
      exact ⟨by simp, by simp, by simp⟩

/-- Witness for C6: with no owner configured and a successful version-control
check, the trace is exactly kill → persist → snapshot → execv, and the
ordering conclusions hold at the decomposition before `execv`. -/
theorem restart_request_ordering_witness :
    RAction.killWorkers ∈
      [RAction.killWorkers,
       RAction.persistState { session_id := some "s2", tg_offset := some 0 },
       RAction.snapshot "pre_restart_exit"] ∧
    RAction.execv ∈ handle_restart_request "agent" {} true "m" "s2" := by
  have h := (restart_request_ordering "agent" {} true "m" "s2").2 rfl
  refine ⟨?_, h.1⟩
  have hd := h.2
    [RAction.killWorkers,
     RAction.persistState { session_id := some "s2", tg_offset := some 0 },
     RAction.snapshot "pre_restart_exit"] [] (by decide)
  exact hd.1

/-! ## colab_launcher.py : _chat_watchdog_loop -/

/-- What one watchdog poll observes of the direct-mode chat agent
(`agent._busy`, `agent._last_progress_ts`, `agent._task_started_ts`). -/
structure AgentObs where
  busy : Bool
  lastProgressTs : ℚ
  taskStartedTs : ℚ
  deriving DecidableEq

/-- The watchdog's externally observable actions during one poll. -/
inductive WdAction where
  | softWarn (chatId : Int)
  | hardNotify (chatId : Int)
  | resetAgent
  deriving DecidableEq

/-- One poll of `_chat_watchdog_loop` (colab_launcher.py lines 242-283):
given the thresholds, the owner chat (read from the state record), the
observed agent and `now`, and the current `soft_warned` flag, it returns the
new flag and the actions taken.  Not busy resets the flag; idle ≥ hard
notifies (when an owner is configured) and recreates the agent, resetting
the flag; idle ≥ soft with the flag clear warns once and sets the flag. -/
def chat_watchdog_step (softT hardT : ℚ) (owner : Option Int) (a : AgentObs)
    (now : ℚ) (softWarned : Bool) : Bool × List WdAction :=
  if a.busy = false then (false, [])
  else
    let idle := now - a.lastProgressTs
    if hardT ≤ idle then
      (false,
        (match owner with
          | some c => [WdAction.hardNotify c]
          | none => []) ++ [WdAction.resetAgent])
    else if softT ≤ idle ∧ softWarned = false then
      (true,
        match owner with
        | some c => [WdAction.softWarn c]
        | none => [])
    else (softWarned, [])

/-- The watchdog loop over a list of polls, threading the `soft_warned`
flag; returns the actions of each poll in order. -/
def chat_watchdog_run (softT hardT : ℚ) (owner : Option Int) :
    List (AgentObs × ℚ) → Bool → List (List WdAction)
  | [], _ => []
  | (a, now) :: rest, warned =>
    (chat_watchdog_step softT hardT owner a now warned).2 ::
      chat_watchdog_run softT hardT owner rest
        (chat_watchdog_step softT hardT owner a now warned).1

/-- Counterexample to C7 as stated: with the default thresholds (600s soft,
1800s hard) and an owner configured, a busy task stalls (idle 700s — one
warning), then makes progress (idle 10s), then stalls again (idle 700s) —
and the third poll emits no second warning, because the flag is only reset
when the agent is observed not busy (or after a hard reset), not when the
task makes progress. -/
theorem watchdog_second_stall_counterexample :
    chat_watchdog_run 600 1800 (some 1)
      [({ busy := true, lastProgressTs := 0, taskStartedTs := 0 }, 700),
       ({ busy := true, lastProgressTs := 1000, taskStartedTs := 0 }, 1010),
       ({ busy := true, lastProgressTs := 1000, taskStartedTs := 0 }, 1700)] false =
      [[WdAction.softWarn 1], [], []] := by
  simp only [chat_watchdog_run, chat_watchdog_step]
  norm_num

/-- C7 (amended): per watchdog poll — an idle (not busy) agent clears the
warning flag and does nothing; a busy agent at or past the hard threshold
triggers an operator notification (when configured) and an agent reset and
clears the flag; a busy agent at or past the soft threshold (below hard)
with the flag clear emits exactly one soft warning and sets the flag; while
the flag is set, a busy agent below the hard threshold emits nothing — so
the warning is debounced per busy period, the flag being reset when the
task finishes or after a hard reset, not on mere progress. -/
theorem chat_watchdog_behavior (softT hardT : ℚ) (owner : Option Int) (a : AgentObs)
    (now : ℚ) (softWarned : Bool) :
    (a.busy = false →
      chat_watchdog_step softT hardT owner a now softWarned = (false, [])) ∧
    (a.busy = true → hardT ≤ now - a.lastProgressTs →
      chat_watchdog_step softT hardT owner a now softWarned =
        (false,
          (match owner with
            | some c => [WdAction.hardNotify c]
            | none => []) ++ [WdAction.resetAgent])) ∧
    (a.busy = true → now - a.lastProgressTs < hardT →
      softT ≤ now - a.lastProgressTs → softWarned = false →
      chat_watchdog_step softT hardT owner a now softWarned =
        (true,
          match owner with
          | some c => [WdAction.softWarn c]
          | none => [])) ∧
    (a.busy = true → now - a.lastProgressTs < hardT → softWarned = true →
      chat_watchdog_step softT hardT owner a now softWarned = (true, [])) ∧
    (a.busy = true → now - a.lastProgressTs < softT →
      now - a.lastProgressTs < hardT →
      chat_watchdog_step softT hardT owner a now softWarned = (softWarned, [])) := by
  refine ⟨?_, ?_, ?_, ?_, ?_⟩
  · intro hb
    simp only [chat_watchdog_step]
    rw [if_pos hb]
  · intro hb hh
    simp only [chat_watchdog_step]
    rw [if_neg (by simp [hb]), if_pos hh]
  · intro hb hh hs hw
    simp only [chat_watchdog_step]
    rw [if_neg (by simp [hb]), if_neg (not_le.mpr hh), if_pos ⟨hs, hw⟩]
  · intro hb hh hw
    simp only [chat_watchdog_step]
    rw [if_neg (by simp [hb]), if_neg (not_le.mpr hh),
      if_neg (by intro hc; rw [hw] at hc; cases hc.2), hw]
  · intro hb hs hh
    simp only [chat_watchdog_step]
    rw [if_neg (by simp [hb]), if_neg (not_le.mpr hh),
      if_neg (by intro hc; exact absurd hc.1 (not_le.mpr hs))]

/-- Witness for C7 (amended) at a concrete first stall: busy, idle 700s with
defaults 600/1800 and owner chat 1, flag clear — exactly one soft warning. -/
theorem chat_watchdog_behavior_witness :
    chat_watchdog_step 600 1800 (some 1)
      { busy := true, lastProgressTs := 0, taskStartedTs := 0 } 700 false =
      (true, [WdAction.softWarn 1]) :=
  (chat_watchdog_behavior 600 1800 (some 1)
      { busy := true, lastProgressTs := 0, taskStartedTs := 0 } 700 false).2.2.1
    rfl (by norm_num) (by norm_num) rfl

/-! ## colab_launcher.py : _main_loop cycle structure -/

/-- The phases a supervisor main-loop iteration can perform. -/
inductive CycleStep where
  | pollOperatorMessages
  | drainWorkerEvents
  | timeoutSweep
  | evolutionInjectionCheck
  | sleepSeconds (n : ℚ)
  deriving DecidableEq

/-- The per-iteration phase trace of `_main_loop` (colab_launcher.py lines
439-493), read off the loop body in order: load state + `TG.get_updates`
with message handling (lines 441-489), `enforce_task_timeouts()` (line 491),
`enqueue_evolution_task_if_needed()` (line 492), `time.sleep(1)` (line 493).
No statement of the body reads the worker event queue: `dispatch_event` is
imported (line 199) and its `_event_ctx` is built (lines 313-338) but
neither is ever used. -/
def mainLoopCycle : List CycleStep :=
  [CycleStep.pollOperatorMessages, CycleStep.timeoutSweep,
   CycleStep.evolutionInjectionCheck, CycleStep.sleepSeconds 1]

/-- Modelled from the spec: the main-loop cycle §5 prescribes — drain
inbound operator messages → drain the event queue → run timeout sweep → run
evolution-injection check → sleep (~1 s). -/
def specMainLoopCycle : List CycleStep :=
  [CycleStep.pollOperatorMessages, CycleStep.drainWorkerEvents,
   CycleStep.timeoutSweep, CycleStep.evolutionInjectionCheck,
   CycleStep.sleepSeconds 1]

/-- C8: the main loop as written performs no worker-event drain in any
iteration — the event-drain step claimed to sit between message polling and
the timeout sweep is absent, and the code's cycle differs from the
specified one. -/
theorem main_loop_missing_event_drain :
    CycleStep.drainWorkerEvents ∉ mainLoopCycle ∧
    mainLoopCycle ≠ specMainLoopCycle := by
  constructor
  · intro h
    rcases h with _ | ⟨_, h⟩
    rcases h with _ | ⟨_, h⟩
    rcases h with _ | ⟨_, h⟩
    rcases h with _ | ⟨_, h⟩
    cases h
  · intro h
    cases h
